import Mathlib

/-!
Shallow embedding of the lam4 bidirectional type checker
(`src/lam4-parser/src/language/type-system/infer.ts` together with the
`type-tags.ts` class definitions it uses, and the scope provider's
`scopeSigMembers`).  Syntax nodes are identified by `NodeId`; the syntax
tree is a total map `Prog : NodeId → Node`.  The mutable `TypeEnv` cache
is threaded explicitly as state, and the mutually recursive
`synth`/`check` engine is given a fuel parameter: `none` models
non-termination or a JavaScript runtime crash, `some` a normal return.
-/

set_option maxRecDepth 4000

namespace Lam4

abbrev NodeId := Nat

/-- The operator kinds distinguished by `inferBinExpr`: the four
`ARITH_OPERATORS`, `OpAnd`/`OpOr`, the comparison operators recognised by
`isComparisonOp` (collapsed into one constructor), and anything else. -/
inductive BinOpKind where
  | opPlus | opMinus | opMult | opDiv | opAnd | opOr | opComparison | opOtherKind
  deriving DecidableEq

/-- The three builtin type names a `BuiltinType` annotation can carry. -/
inductive BuiltinName where
  | strName | intName | boolName
  deriving DecidableEq

/-- AST node shapes, one constructor per node kind distinguished by the
dispatch in `synthNewNode` and `check`.  Reference-shaped slots are
`Option NodeId` (`none` = linking failed). -/
inductive Node where
  /-- a `Ref`: resolution state, `$refText`, and the optional linking-error message -/
  | refNode (resolved : Option NodeId) (refText : String) (linkErrMsg : Option String)
  /-- a `Join`: left operand and the right-hand reference's `$refText` -/
  | joinNode (left : NodeId) (rightRefText : String)
  | stringLit
  | booleanLit
  | numberLit
  /-- `VarDecl`: optional type annotation and bound value -/
  | varDecl (varType : Option NodeId) (value : NodeId)
  /-- `Param`: its `$container` and name -/
  | paramNode (container : NodeId) (pname : String)
  /-- `ParamTypePair`: param component and type-annotation component -/
  | paramTypePair (paramN : NodeId) (typeN : NodeId)
  /-- `BuiltinType` type annotation -/
  | builtinTypeNode (annot : BuiltinName)
  /-- `CustomTypeDef` type annotation: resolution state and `$refText` of `annot` -/
  | customTypeNode (resolved : Option NodeId) (refText : String)
  /-- a `TypeAnnot` that is neither a `BuiltinType` nor a `CustomTypeDef` -/
  | annotOtherNode
  /-- `SigDecl`: name, parent references (possibly unresolved), declared relations -/
  | sigDecl (sname : String) (parents : List (Option NodeId)) (relations : List NodeId)
  /-- `Relation`: `$container`, name, relatum type annotation -/
  | relationNode (container : NodeId) (rname : String) (relatum : NodeId)
  | binExpr (op : BinOpKind) (left : NodeId) (right : NodeId)
  /-- `FunDecl`: formal params, flat type-slot list (last = return type), body -/
  | funDecl (params : List NodeId) (types : List NodeId) (body : NodeId)
  | funApp (func : NodeId) (args : List NodeId)
  /-- `PredicateDecl`: list of (param, type-annotation) pairs, body -/
  | predicateDecl (params : List (NodeId × NodeId)) (body : NodeId)
  | iteNode (cond : NodeId) (thenE : NodeId) (elseE : NodeId)
  | otherNode

abbrev Prog := NodeId → Node

/-- `TypeTag` union from `type-tags.ts`.  `relationT` carries an
`instId : Nat` allocated from a fresh counter when the tag is constructed:
it models JavaScript object identity, which `RelationTTag.sameTypeAs`
compares with `===`. -/
inductive TypeTag where
  | booleanT (lit : Option NodeId)
  | stringT (lit : Option NodeId)
  | integerT (lit : Option NodeId)
  | unitT
  | functionT (parameters : List (NodeId × TypeTag)) (returnType : TypeTag)
  | predicateT (parameters : List (NodeId × TypeTag))
  | sigT (sig : NodeId)
  | relationT (relationNode : NodeId) (parentSig : NodeId) (relatum : TypeTag) (instId : Nat)
  | errorT (astNode : NodeId) (message : String)

/-- Predicate `isBooleanTTag` (source: `tag == "Boolean"`). -/
def isBooleanTTag : TypeTag → Bool
  | .booleanT _ => true
  | _ => false

/-- Predicate `isStringTTag`. -/
def isStringTTag : TypeTag → Bool
  | .stringT _ => true
  | _ => false

/-- Predicate `isUnitTTag`. -/
def isUnitTTag : TypeTag → Bool
  | .unitT => true
  | _ => false

/-- Predicate `isIntegerTTag`. -/
def isIntegerTTag : TypeTag → Bool
  | .integerT _ => true
  | _ => false

/-- Predicate `isFunctionTTag`. -/
def isFunctionTTag : TypeTag → Bool
  | .functionT _ _ => true
  | _ => false

/-- Predicate `isPredicateTTag`. -/
def isPredicateTTag : TypeTag → Bool
  | .predicateT _ => true
  | _ => false

/-- Predicate `isSigTTag`. -/
def isSigTTag : TypeTag → Bool
  | .sigT _ => true
  | _ => false

/-- Predicate `isRelationTTag`. -/
def isRelationTTag : TypeTag → Bool
  | .relationT _ _ _ _ => true
  | _ => false

/-- Predicate `isErrorTypeTag` (source: `tag === "TCError"`). -/
def isErrorTypeTag : TypeTag → Bool
  | .errorT _ _ => true
  | _ => false

mutual

/-- `sameTypeAs`, the per-variant compatibility predicate of `type-tags.ts`:
primitives compare by tag kind only; `SigTTag.sameTypeAs` checks only that
the other tag is a Sig tag; `RelationTTag.sameTypeAs` is `this === other`
(instance identity, modelled by `instId`); Function/Predicate compare
positional parameter types (ignoring the return type); `ErrorTypeTag`
compares offending node and message. -/
def sameTypeAs : TypeTag → TypeTag → Bool
  | .booleanT _, o => isBooleanTTag o
  | .stringT _, o => isStringTTag o
  | .unitT, o => isUnitTTag o
  | .integerT _, o => isIntegerTTag o
  | .functionT ps _, o =>
      match o with
      | .functionT qs _ => paramTagsCoincide ps qs
      | _ => false
  | .predicateT ps, o =>
      match o with
      | .predicateT qs => paramTagsCoincide ps qs
      | _ => false
  | .sigT _, o => isSigTTag o
  | .relationT _ _ _ i, o =>
      match o with
      | .relationT _ _ _ j => i == j
      | _ => false
  | .errorT n m, o =>
      match o with
      | .errorT n2 m2 => n == n2 && m == m2
      | _ => false

/-- `paramTagsCoincide` of `FunctionTTag`/`PredicateTTag`: equal arity and
pairwise positional `sameTypeAs` on the parameter types. -/
def paramTagsCoincide : List (NodeId × TypeTag) → List (NodeId × TypeTag) → Bool
  | [], [] => true
  | p :: ps, q :: qs => sameTypeAs p.2 q.2 && paramTagsCoincide ps qs
  | _, _ => false

end

/-- `SigTTag.sameSigAs`: declaration-identity comparison of Sig tags
(`isSigTTag(other) && other.getSig() === this.getSig()`); only Sig tags
have this method, all other receivers are unreachable. -/
def sameSigAs : TypeTag → TypeTag → Bool
  | .sigT s, .sigT s2 => s == s2
  | _, _ => false

/-- Name of a named node (`.name` in JavaScript; `none` models `undefined`). -/
def nameOf : Node → Option String
  | .sigDecl sname _ _ => some sname
  | .relationNode _ rname _ => some rname
  | .paramNode _ pname => some pname
  | _ => none

/-- Param name as interpolated into a template literal (`undefined` when absent). -/
def nameOrUndef (prog : Prog) (n : NodeId) : String :=
  match nameOf (prog n) with
  | some s => s
  | none => "undefined"

mutual

/-- `toString` of the type-tag classes, used when tags are interpolated into
error messages.  Function/Predicate tags print their parameter names, which
requires the program to look the names up. -/
def TypeTag.toStr : Prog → TypeTag → String
  | _, .booleanT _ => "Boolean"
  | _, .stringT _ => "String"
  | _, .integerT _ => "Integer"
  | _, .unitT => "Unit"
  | prog, .functionT ps ret => "(" ++ paramsToStr prog ps ++ ") => " ++ TypeTag.toStr prog ret
  | prog, .predicateT ps => "Predicate[(" ++ paramsToStr prog ps ++ ")]"
  | _, .sigT _ => "Sig"
  | _, .relationT _ _ _ _ => "Relation"
  | _, .errorT _ m => "Error: " ++ m

/-- Comma-joined `name: type` entries (`Array.join(", ")`). -/
def paramsToStr : Prog → List (NodeId × TypeTag) → String
  | _, [] => ""
  | prog, [p] => nameOrUndef prog p.1 ++ ": " ++ TypeTag.toStr prog p.2
  | prog, p :: q :: rest =>
      nameOrUndef prog p.1 ++ ": " ++ TypeTag.toStr prog p.2 ++ ", " ++ paramsToStr prog (q :: rest)

end

/-- The `TypeEnv` map contents (`Map<AstNode, TypeTag>` keyed by node identity). -/
abbrev TypeEnv := NodeId → Option TypeTag

/-- `TypeEnv.lookup` (`envMap.get(node) ?? null`). -/
def TypeEnv.lookup (e : TypeEnv) (n : NodeId) : Option TypeTag := e n

/-- Contents of `new Map(pairs)`: on duplicate keys the later pair wins. -/
def mapOfPairs : List (NodeId × TypeTag) → TypeEnv
  | [] => fun _ => none
  | p :: ps => fun k =>
      match mapOfPairs ps k with
      | some t => some t
      | none => if p.1 == k then some p.2 else none

/-- `TypeEnv.extendWith`: `new Map([...this.envMap, ...newPairMap])` — a new
environment whose lookups prefer the pair map over the receiver's entries.
The receiver is not mutated (in this pure embedding a `TypeEnv` is a value;
`extendWith` builds a new one from it). -/
def TypeEnv.extendWith (e : TypeEnv) (ps : List (NodeId × TypeTag)) : TypeEnv :=
  fun k =>
    match mapOfPairs ps k with
    | some t => some t
    | none => e k

/-- Interpreter state: the shared mutable `TypeEnv` cache written by
`synthNewNode`, plus the fresh counter modelling object allocation for
`RelationTTag` instance identity. -/
structure St where
  env : TypeEnv
  fresh : Nat

/-- `env.set(node, type)`: the memoization write. -/
def St.setEnv (σ : St) (n : NodeId) (t : TypeTag) : St :=
  { σ with env := fun k => if k == n then some t else σ.env k }

/-- `inferTypeAnnot`: builtin names map to the primitive tags; a resolved
custom type wraps its target in a Sig tag (the source casts the target to
`SigDecl` without checking); an unresolved or unrecognized annotation is an
Error.  Reference/node objects interpolated into the two message templates
print as `[object Object]` in JavaScript. -/
def inferTypeAnnot (prog : Prog) (n : NodeId) : TypeTag :=
  match prog n with
  | .builtinTypeNode .strName => .stringT none
  | .builtinTypeNode .intName => .integerT none
  | .builtinTypeNode .boolName => .booleanT none
  | .customTypeNode (some target) _ => .sigT target
  | .customTypeNode none _ =>
      .errorT n "Type annotation [object Object] not found because of an issue with linking"
  | _ => .errorT n "Type annotation [object Object] not recognized"

/-- Modelled from the spec: `FunctionTTag.getTypeOfParam` is invoked by the
Param rule of `synthNewNode` but its definition is not among the provided
sources (the `type-tags.ts` on hand lacks it); the spec says the Param rule
"looks up this parameter's declared type within" the Function tag, so this
finds the pair whose param node is the given one. -/
def getTypeOfParam (ps : List (NodeId × TypeTag)) (n : NodeId) : Option TypeTag :=
  (ps.find? (fun p => p.1 == n)).map (fun p => p.2)

/-- Modelled from the spec: `zip` comes from `../../utils.js`, which is not
among the provided sources; the spec says arguments are "positionally
zipped with the callee's parameter types, truncated to the shorter of the
two lists". -/
def zip (xs : List α) (ys : List β) : List (α × β) := xs.zip ys

/-- `predicateTTagFromPredDecl`: a Predicate tag from the declaration's
(param, type-annotation) pairs, each annotation inferred independently. -/
def predicateTTagFromPredDecl (prog : Prog) (params : List (NodeId × NodeId)) : TypeTag :=
  .predicateT (params.map (fun p => (p.1, inferTypeAnnot prog p.2)))

/-- Resolved parent links of a Sig node (`parent.ref` for each parent
reference that resolved, in declaration order); only Sig nodes carry
parent references. -/
def sigParentsResolved (prog : Prog) (v : NodeId) : List NodeId :=
  match prog v with
  | .sigDecl _ parents _ => parents.filterMap id
  | _ => []

/-- Error message of the if-then-else rule of `check`. -/
def iteErrMsg : String :=
  "Type error in if-then-else expression (a more helpful error msg is possible with more work)"

/-- Error message of the function-application rule when the callee is not a function. -/
def funAppErrMsg : String :=
  "We expected a function type because of the function application, but this is not a function type"

/-- Requests to the fused interpreter `run`: one constructor per mutually
recursive function of `infer.ts` (the mutual recursion is fused into a
single structurally recursive function so that concrete runs reduce
definitionally; the source-named functions below are thin wrappers). -/
inductive Req where
  | synthR (n : NodeId)
  | synthNewR (n : NodeId)
  | dispatchR (n : NodeId)
  | refR (n : NodeId) (res : Option NodeId) (txt : String) (errMsg : Option String)
  | joinR (n : NodeId) (left : NodeId) (rtxt : String)
  | binR (n : NodeId) (op : BinOpKind)
  | funDeclR (n : NodeId) (params : List NodeId) (types : List NodeId)
  | listR (ns : List NodeId)
  | appR (n : NodeId) (func : NodeId) (args : List NodeId)
  | appLoopR (pairs : List (NodeId × TypeTag)) (cur : TypeTag) (passed : Bool)
  | checkR (n : NodeId) (ty : TypeTag)

/-- Results of `run`: a type tag (`synth`/`check` and friends), a tag list
(`synthList`), or the running (tag, checkPassed) pair of the
function-application argument loop. -/
inductive Res where
  | tagR (t : TypeTag)
  | tagsR (ts : List TypeTag)
  | loopR (t : TypeTag) (passed : Bool)

/-- The fused interpreter.  Each `Req` branch is the body of the
corresponding source function; fuel models the call stack (`none` =
non-termination or a JavaScript crash).  See the wrappers below for the
per-function documentation. -/
def run (fuel : Nat) (prog : Prog) (σ : St) (req : Req) : Option (Res × St) :=
  match fuel with
  | 0 => none
  | f + 1 =>
    match req with
    -- synth(env, term): memoization short-circuit, else synthNewNode.
    -- (The `if (!term)` falsy guard is not representable: every NodeId
    -- denotes a node.)
    | .synthR n =>
        match σ.env n with
        | some t => some (.tagR t, σ)
        | none => run f prog σ (.synthNewR n)
    -- synthNewNode: dispatch on the node kind, then store the result in the
    -- shared cache before returning (env.set(term, typeTag); return typeTag).
    | .synthNewR n =>
        match run f prog σ (.dispatchR n) with
        | some (.tagR tag, σ1) => some (.tagR tag, σ1.setEnv n tag)
        | _ => none
    -- the kind dispatch of synthNewNode (the source's if/else chain; Ref and
    -- Join are checked first, the remaining kinds are disjoint constructors
    -- here)
    | .dispatchR n =>
        match prog n with
        | .refNode res txt errMsg => run f prog σ (.refR n res txt errMsg)
        | .joinNode left rtxt => run f prog σ (.joinR n left rtxt)
        | .stringLit => some (.tagR (.stringT (some n)), σ)
        | .booleanLit => some (.tagR (.booleanT (some n)), σ)
        | .numberLit => some (.tagR (.integerT (some n)), σ)
        | .varDecl varType value =>
            match varType with
            | some ty => run f prog σ (.synthR ty)
            | none => run f prog σ (.synthR value)
        | .paramNode container _ =>
            match run f prog σ (.synthR container) with
            | some (.tagR typeOfParent, σ1) =>
                match typeOfParent with
                | .functionT ps _ =>
                    match getTypeOfParam ps n with
                    | some paramType => some (.tagR paramType, σ1)
                    | none =>
                        some (.tagR (.errorT n "param either not a param of function or lacks a type annotation"), σ1)
                | _ =>
                    some (.tagR (.errorT n "param either not a param of function or lacks a type annotation"), σ1)
            | _ => none
        | .paramTypePair _ typeN => run f prog σ (.synthR typeN)
        | .builtinTypeNode _ => some (.tagR (inferTypeAnnot prog n), σ)
        | .customTypeNode _ _ => some (.tagR (inferTypeAnnot prog n), σ)
        | .annotOtherNode => some (.tagR (inferTypeAnnot prog n), σ)
        | .sigDecl _ _ _ => some (.tagR (.sigT n), σ)
        | .relationNode container _ relatum =>
            -- isSigDecl(container) ? new RelationTTag(term, synth(container)
            -- as SigTTag, synth(relatum)) : Error
            match prog container with
            | .sigDecl _ _ _ =>
                match run f prog σ (.synthR container) with
                | some (.tagR (.sigT parentSig), σ1) =>
                    match run f prog σ1 (.synthR relatum) with
                    | some (.tagR relatumType, σ2) =>
                        -- allocate a fresh RelationTTag instance
                        some (.tagR (.relationT n parentSig relatumType σ2.fresh),
                              { σ2 with fresh := σ2.fresh + 1 })
                    | _ => none
                -- a cached non-Sig tag for the container: the unchecked cast
                -- makes getSig() throw in JavaScript; modelled as a crash
                | _ => none
            | _ => some (.tagR (.errorT n "Relation should have a Concept as its parent"), σ)
        | .binExpr op _ _ => run f prog σ (.binR n op)
        | .funDecl params types _ => run f prog σ (.funDeclR n params types)
        | .funApp func args => run f prog σ (.appR n func args)
        | .predicateDecl params _ =>
            run f prog σ (.checkR n (predicateTTagFromPredDecl prog params))
        | .iteNode _ _ _ => some (.tagR (.errorT n "Type of term cannot be inferred"), σ)
        | .otherNode => some (.tagR (.errorT n "Type of term cannot be inferred"), σ)
    -- synthRef: a resolved reference synthesizes its target; an unresolved
    -- one is an Error carrying the reference text and optional linking error
    -- (an absent error?.message interpolates as "undefined")
    | .refR n res txt errMsg =>
        match res with
        | some target => run f prog σ (.synthR target)
        | none =>
            some (.tagR (.errorT n ("Can't typecheck ref because reference can't be resolved. reftxt: "
              ++ txt ++ "; linking error?: "
              ++ (match errMsg with | some m => m | none => "undefined"))), σ)
    -- synthJoin: synthesize the left operand; if it is a Sig tag, search the
    -- relations declared on that Sig (sig.relations.find(...)) for the
    -- right-hand name, synthesize the found Relation and apply joinOnLeft
    -- (relatum if the relation's owner is exactly the left Sig, else the
    -- internal-consistency Error); otherwise the non-Sig-left Error.
    -- Accessing .relations on a non-Sig node wrapped in a Sig tag would
    -- throw in JavaScript; modelled as a crash.
    | .joinR n left rtxt =>
        match run f prog σ (.synthR left) with
        | some (.tagR typeOfLeft, σ1) =>
            match typeOfLeft with
            | .sigT s =>
                match prog s with
                | .sigDecl sname _ relations =>
                    match relations.find? (fun relId => nameOf (prog relId) == some rtxt) with
                    | some matchingRelation =>
                        match run f prog σ1 (.synthR matchingRelation) with
                        | some (.tagR relationType, σ2) =>
                            match relationType with
                            | .relationT _ parentSig relatum _ =>
                                -- joinOnLeft
                                if parentSig == s then some (.tagR relatum, σ2)
                                else some (.tagR (.errorT n "join should have worked"), σ2)
                            | _ =>
                                some (.tagR (.errorT matchingRelation
                                  ("Relation should have a RelationTTag, but it instead has "
                                    ++ TypeTag.toStr prog relationType)), σ2)
                        | _ => none
                    | none =>
                        some (.tagR (.errorT n ("Relatum " ++ rtxt ++ " not found in " ++ sname)), σ1)
                | _ => none
            | _ =>
                some (.tagR (.errorT left
                  ("The type of something to the left of a join / field access operator should be a Concept, and not a "
                    ++ TypeTag.toStr prog typeOfLeft)), σ1)
        | _ => none
    -- inferBinExpr: comparison/logical operators check the whole expression
    -- against Boolean, arithmetic ones against Integer, else Error
    | .binR n op =>
        if op == .opComparison || op == .opAnd || op == .opOr then
          run f prog σ (.checkR n (.booleanT none))
        else if op == .opPlus || op == .opMinus || op == .opMult || op == .opDiv then
          run f prog σ (.checkR n (.integerT none))
        else
          some (.tagR (.errorT n "Type of binary expression cannot be inferred"), σ)
    -- functionTTagFromFuncDecl: synthesize every type slot; all but the last
    -- are parameter types, the last is the return type; the parameter count
    -- must match the formal parameter list, which is zipped with the
    -- parameter types.  An empty type-slot list would make the source build
    -- a tag with an undefined return type (unrepresentable;
    -- grammar-excluded), modelled as a crash.
    | .funDeclR n params types =>
        match run f prog σ (.listR types) with
        | some (.tagsR paramAndRetTypes, σ1) =>
            match paramAndRetTypes.getLast? with
            | some retType =>
                if paramAndRetTypes.dropLast.length != params.length then
                  some (.tagR (.errorT n "Number of parameters and parameter types do not match"), σ1)
                else
                  some (.tagR (.functionT (zip params paramAndRetTypes.dropLast) retType), σ1)
            | none => none
        | _ => none
    -- state-threaded map of synth over a node list (fundecl.types.map(synth))
    | .listR ns =>
        match ns with
        | [] => some (.tagsR [], σ)
        | t :: ts =>
            match run f prog σ (.synthR t) with
            | some (.tagR tag, σ1) =>
                match run f prog σ1 (.listR ts) with
                | some (.tagsR tags, σ2) => some (.tagsR (tag :: tags), σ2)
                | _ => none
            | _ => none
    -- the FunctionApplication rule of synthNewNode: synthesize the callee; a
    -- Function tag leads to the positional argument-checking loop (initial
    -- typeTag is the Could-not-infer-type Error, replaced by the return type
    -- when all checks pass), anything else to the expected-a-function Error
    | .appR n func args =>
        match run f prog σ (.synthR func) with
        | some (.tagR inferredFuncType, σ1) =>
            match inferredFuncType with
            | .functionT ps ret =>
                match run f prog σ1 (.appLoopR (zip args (ps.map (fun p => p.2)))
                    (.errorT n "Could not infer type") true) with
                | some (.loopR tag passed, σ2) =>
                    if passed then some (.tagR ret, σ2) else some (.tagR tag, σ2)
                | _ => none
            | _ => some (.tagR (.errorT func funAppErrMsg), σ1)
        | _ => none
    -- the for-loop over zip(term.args, inferredArgTypes): each failing check
    -- overwrites the running tag and clears checkPassed; successes leave
    -- both untouched
    | .appLoopR pairs cur passed =>
        match pairs with
        | [] => some (.loopR cur passed, σ)
        | (arg, expectedType) :: rest =>
            match run f prog σ (.checkR arg expectedType) with
            | some (.tagR checkRetType, σ1) =>
                if isErrorTypeTag checkRetType then
                  run f prog σ1 (.appLoopR rest checkRetType false)
                else
                  run f prog σ1 (.appLoopR rest cur passed)
            | _ => none
    -- check(env, term, type): bespoke rules for binary expressions, function
    -- declarations, predicate declarations (stubbed) and conditionals,
    -- falling back to synthesis plus sameTypeAs
    | .checkR n ty =>
        match prog n with
        | .binExpr _ left right =>
            -- checkChildrenHaveSameType
            match run f prog σ (.checkR left ty) with
            | some (.tagR leftType, σ1) =>
                match run f prog σ1 (.checkR right ty) with
                | some (.tagR rightType, σ2) =>
                    if sameTypeAs leftType ty && sameTypeAs rightType ty then
                      some (.tagR ty, σ2)
                    else
                      some (.tagR (.errorT n ("Type error in binary expression. Expected type to be "
                        ++ TypeTag.toStr prog ty ++ ", but got " ++ TypeTag.toStr prog leftType
                        ++ " and " ++ TypeTag.toStr prog rightType)), σ2)
                | _ => none
            | _ => none
        -- the function-declaration rule runs the body check in a fresh
        -- extended environment (a new Map), so its memo-writes are invisible
        -- to the caller's environment object, whose contents are restored
        -- afterwards; allocations persist
        | .funDecl _ _ body =>
            match ty with
            | .functionT ps ret =>
                match run f prog { σ with env := σ.env.extendWith ps } (.checkR body ret) with
                | some (.tagR r, σ1) => some (.tagR r, { σ1 with env := σ.env })
                | _ => none
            | _ => some (.tagR (.errorT n "Function declaration must be annotated with a function type"), σ)
        | .predicateDecl _ _ => some (.tagR (.errorT n "TODO"), σ)
        -- the if-then-else rule; the && chain short-circuits: later operands
        -- are not synthesized
        | .iteNode cond thenE elseE =>
            match run f prog σ (.synthR cond) with
            | some (.tagR tc, σ1) =>
                if isBooleanTTag tc then
                  match run f prog σ1 (.synthR thenE) with
                  | some (.tagR tt, σ2) =>
                      if sameTypeAs tt ty then
                        match run f prog σ2 (.synthR elseE) with
                        | some (.tagR te, σ3) =>
                            if sameTypeAs te ty then some (.tagR ty, σ3)
                            else some (.tagR (.errorT n iteErrMsg), σ3)
                        | _ => none
                      else some (.tagR (.errorT n iteErrMsg), σ2)
                  | _ => none
                else some (.tagR (.errorT n iteErrMsg), σ1)
            | _ => none
        -- fallback: synthesize and compare with sameTypeAs
        | _ =>
            match run f prog σ (.synthR n) with
            | some (.tagR termType, σ1) =>
                if sameTypeAs termType ty then some (.tagR ty, σ1)
                else some (.tagR (.errorT n "Type error"), σ1)
            | _ => none

/-- `synth(env, term) -> TypeTag` of `infer.ts` (wrapper over `run`). -/
def synth (fuel : Nat) (prog : Prog) (σ : St) (n : NodeId) : Option (TypeTag × St) :=
  match run fuel prog σ (.synthR n) with
  | some (.tagR t, σ1) => some (t, σ1)
  | _ => none

/-- `synthNewNode(env, term)` of `infer.ts` (wrapper over `run`). -/
def synthNewNode (fuel : Nat) (prog : Prog) (σ : St) (n : NodeId) : Option (TypeTag × St) :=
  match run fuel prog σ (.synthNewR n) with
  | some (.tagR t, σ1) => some (t, σ1)
  | _ => none

/-- `synthJoin(env, term)` of `infer.ts` (wrapper over `run`). -/
def synthJoin (fuel : Nat) (prog : Prog) (σ : St) (n : NodeId)
    (left : NodeId) (rtxt : String) : Option (TypeTag × St) :=
  match run fuel prog σ (.joinR n left rtxt) with
  | some (.tagR t, σ1) => some (t, σ1)
  | _ => none

/-- `synthRef(env, ref)` of `infer.ts` (wrapper over `run`). -/
def synthRef (fuel : Nat) (prog : Prog) (σ : St) (n : NodeId)
    (res : Option NodeId) (txt : String) (errMsg : Option String) : Option (TypeTag × St) :=
  match run fuel prog σ (.refR n res txt errMsg) with
  | some (.tagR t, σ1) => some (t, σ1)
  | _ => none

/-- `inferBinExpr(env, expr)` of `infer.ts` (wrapper over `run`). -/
def inferBinExpr (fuel : Nat) (prog : Prog) (σ : St) (n : NodeId) (op : BinOpKind) :
    Option (TypeTag × St) :=
  match run fuel prog σ (.binR n op) with
  | some (.tagR t, σ1) => some (t, σ1)
  | _ => none

/-- `functionTTagFromFuncDecl(env, fundecl)` of `infer.ts` (wrapper over `run`). -/
def functionTTagFromFuncDecl (fuel : Nat) (prog : Prog) (σ : St) (n : NodeId)
    (params : List NodeId) (types : List NodeId) : Option (TypeTag × St) :=
  match run fuel prog σ (.funDeclR n params types) with
  | some (.tagR t, σ1) => some (t, σ1)
  | _ => none

/-- The state-threaded `fundecl.types.map(synth.bind(undefined, env))` (wrapper over `run`). -/
def synthList (fuel : Nat) (prog : Prog) (σ : St) (ns : List NodeId) :
    Option (List TypeTag × St) :=
  match run fuel prog σ (.listR ns) with
  | some (.tagsR ts, σ1) => some (ts, σ1)
  | _ => none

/-- The FunctionApplication rule of `synthNewNode` (wrapper over `run`). -/
def synthApp (fuel : Nat) (prog : Prog) (σ : St) (n : NodeId)
    (func : NodeId) (args : List NodeId) : Option (TypeTag × St) :=
  match run fuel prog σ (.appR n func args) with
  | some (.tagR t, σ1) => some (t, σ1)
  | _ => none

/-- The argument-checking loop of the FunctionApplication rule (wrapper over `run`). -/
def funAppLoop (fuel : Nat) (prog : Prog) (σ : St) (pairs : List (NodeId × TypeTag))
    (cur : TypeTag) (passed : Bool) : Option ((TypeTag × Bool) × St) :=
  match run fuel prog σ (.appLoopR pairs cur passed) with
  | some (.loopR t p, σ1) => some ((t, p), σ1)
  | _ => none

/-- `check(env, term, type)` of `infer.ts` (wrapper over `run`). -/
def check (fuel : Nat) (prog : Prog) (σ : St) (n : NodeId) (ty : TypeTag) :
    Option (TypeTag × St) :=
  match run fuel prog σ (.checkR n ty) with
  | some (.tagR t, σ1) => some (t, σ1)
  | _ => none

/-- Worklist loop of `getSigAncestors`: `toVisit` is the stack (head = last
pushed, as `Array.pop` takes from the end and the resolved parents are
pushed in declaration order), `seen` the insertion-ordered seen set. -/
def getSigAncestorsLoop (fuel : Nat) (prog : Prog) (seen : List NodeId)
    (toVisit : List NodeId) : Option (List NodeId) :=
  match fuel with
  | 0 => none
  | f + 1 =>
    match toVisit with
    | [] => some seen
    | v :: rest =>
        if v ∈ seen then getSigAncestorsLoop f prog seen rest
        else getSigAncestorsLoop f prog (seen ++ [v]) ((sigParentsResolved prog v).reverse ++ rest)

/-- `getSigAncestors(sig)`: deduplicating depth-first closure over resolved
parent links, starting from (and including) `sig`. -/
def getSigAncestors (fuel : Nat) (prog : Prog) (s : NodeId) : Option (List NodeId) :=
  getSigAncestorsLoop fuel prog [] [s]

/-- Declared relations of a Sig node (`sig.relations`). -/
def sigRelations (prog : Prog) (v : NodeId) : List NodeId :=
  match prog v with
  | .sigDecl _ _ relations => relations
  | _ => []

/-- The relation list computed by the scope provider's `scopeSigMembers`
(`src/unnamed/part_002`): `getSigAncestors(sig).flatMap(s => s.relations)` —
the candidate set for resolving the right-hand reference of a join. -/
def scopeSigMembersRels (fuel : Nat) (prog : Prog) (s : NodeId) : Option (List NodeId) :=
  (getSigAncestors fuel prog s).map (fun l => l.flatMap (fun v => sigRelations prog v))

/-! Concrete programs used to instantiate the theorems below. -/

/-- The empty initial state (fresh `TypeEnv`, allocation counter 0). -/
def st0 : St := ⟨fun _ => none, 0⟩

/-- A program whose every node is of an unknown kind. -/
def progO : Prog := fun _ => Node.otherNode

/-- Join scenario: Sig `P` (node 0) declares relation `r` (node 2) with
relatum `Integer` (node 3); Sig `S` (node 1) has parent `P` and no own
relations; node 5 is a reference resolved to `S`, node 6 the join
``x `r``; node 8 a reference resolved to `P`, node 7 the join ``p `r``. -/
def progJoin : Prog := fun n =>
  match n with
  | 0 => .sigDecl "P" [] [2]
  | 1 => .sigDecl "S" [some 0] []
  | 2 => .relationNode 0 "r" 3
  | 3 => .builtinTypeNode .intName
  | 5 => .refNode (some 1) "x" none
  | 6 => .joinNode 5 "r"
  | 7 => .joinNode 8 "r"
  | 8 => .refNode (some 0) "p" none
  | _ => .otherNode

/-- Application scenario: `f : (Integer) => Boolean` (node 1, param node 2,
type slots 3/4, body 5); node 10 is `f(1)`, node 20 is `f(true)`, node 30 is
`f()` (fewer arguments than parameters), node 40 applies the number literal
12 as if it were a function. -/
def progApp : Prog := fun n =>
  match n with
  | 1 => .funDecl [2] [3, 4] 5
  | 2 => .paramNode 1 "x"
  | 3 => .builtinTypeNode .intName
  | 4 => .builtinTypeNode .boolName
  | 5 => .booleanLit
  | 10 => .funApp 11 [12]
  | 11 => .refNode (some 1) "f" none
  | 12 => .numberLit
  | 20 => .funApp 11 [21]
  | 21 => .booleanLit
  | 30 => .funApp 11 []
  | 40 => .funApp 12 []
  | _ => .otherNode

/-- Conditional scenario: node 0 is `if (true) then 1 else 2`, node 5 is
`if (1) then 1 else 2` (non-Boolean condition). -/
def progIte : Prog := fun n =>
  match n with
  | 0 => .iteNode 1 2 3
  | 1 => .booleanLit
  | 2 => .numberLit
  | 3 => .numberLit
  | 5 => .iteNode 6 2 3
  | 6 => .numberLit
  | _ => .otherNode

/-- Binary-expression scenario: node 0 is `1 + 2`. -/
def progBin : Prog := fun n =>
  match n with
  | 0 => .binExpr .opPlus 1 2
  | 1 => .numberLit
  | 2 => .numberLit
  | _ => .otherNode

/-- Diamond parent graph: `D` (3) has parents `B` (1) and `C` (2), which both
have parent `A` (0). -/
def progDiamond : Prog := fun n =>
  match n with
  | 0 => .sigDecl "A" [] []
  | 1 => .sigDecl "B" [some 0] []
  | 2 => .sigDecl "C" [some 0] []
  | 3 => .sigDecl "D" [some 1, some 2] []
  | _ => .otherNode

/-- Potential function for the termination of `getSigAncestorsLoop`:
remaining stack length plus, for every node id below the bound `N` not yet
seen, one pop plus the pushes its resolved parents could contribute. -/
def ancPotential (prog : Prog) (N : Nat) (seen : List NodeId) : Nat :=
  Finset.sum ((Finset.range N).filter (fun i => i ∉ seen))
    (fun i => 1 + (sigParentsResolved prog i).length)

/-- The tag `synth` computes for an unknown-kind node. -/
def memoTag : TypeTag := .errorT 0 "Type of term cannot be inferred"

/-- The state after synthesizing node 0 of `progO` from the empty state. -/
def memoSt : St := st0.setEnv 0 memoTag

/-- Node kinds with a bespoke rule in `check`; every other kind falls
through to synthesis plus `sameTypeAs`. -/
def hasBespokeCheckRule : Node → Bool
  | .binExpr _ _ _ => true
  | .funDecl _ _ _ => true
  | .predicateDecl _ _ => true
  | .iteNode _ _ _ => true
  | _ => false

/-- The message produced by checking `1 + 2` against Boolean: the
binary-expression rule names the expected type and the stringified child
Errors, not the Integer type the children actually have. -/
def binBoolErrMsg : String :=
  "Type error in binary expression. Expected type to be Boolean, but got Error: Type error and Error: Type error"

/-- State after synthesizing the left reference (node 8, resolving to `P`)
of the join at node 7 of `progJoin`. -/
def joinSt1 : St := (st0.setEnv 0 (.sigT 0)).setEnv 8 (.sigT 0)

/-- State after additionally synthesizing relation node 2 (relatum node 3,
one `RelationTTag` allocated). -/
def joinStRel : St :=
  St.setEnv { joinSt1.setEnv 3 (.integerT none) with fresh := 1 } 2
    (.relationT 2 0 (.integerT none) 0)

/-! One-step unfolding equations for `run` (definitional, by structural
recursion on the fuel) and conversions between the source-named wrappers
and `run`. -/

theorem run_zero (prog : Prog) (σ : St) (req : Req) : run 0 prog σ req = none := rfl

theorem run_synthR (f : Nat) (prog : Prog) (σ : St) (n : NodeId) :
    run (f + 1) prog σ (.synthR n) =
      (match σ.env n with
       | some t => some (.tagR t, σ)
       | none => run f prog σ (.synthNewR n)) := rfl

theorem run_synthNewR (f : Nat) (prog : Prog) (σ : St) (n : NodeId) :
    run (f + 1) prog σ (.synthNewR n) =
      (match run f prog σ (.dispatchR n) with
       | some (.tagR tag, σ1) => some (.tagR tag, σ1.setEnv n tag)
       | _ => none) := rfl

theorem run_joinR (f : Nat) (prog : Prog) (σ : St) (n left : NodeId) (rtxt : String) :
    run (f + 1) prog σ (.joinR n left rtxt) =
      (match run f prog σ (.synthR left) with
       | some (.tagR typeOfLeft, σ1) =>
           match typeOfLeft with
           | .sigT s =>
               match prog s with
               | .sigDecl sname _ relations =>
                   match relations.find? (fun relId => nameOf (prog relId) == some rtxt) with
                   | some matchingRelation =>
                       match run f prog σ1 (.synthR matchingRelation) with
                       | some (.tagR relationType, σ2) =>
                           match relationType with
                           | .relationT _ parentSig relatum _ =>
                               if parentSig == s then some (.tagR relatum, σ2)
                               else some (.tagR (.errorT n "join should have worked"), σ2)
                           | _ =>
                               some (.tagR (.errorT matchingRelation
                                 ("Relation should have a RelationTTag, but it instead has "
                                   ++ TypeTag.toStr prog relationType)), σ2)
                       | _ => none
                   | none =>
                       some (.tagR (.errorT n ("Relatum " ++ rtxt ++ " not found in " ++ sname)), σ1)
               | _ => none
           | _ =>
               some (.tagR (.errorT left
                 ("The type of something to the left of a join / field access operator should be a Concept, and not a "
                   ++ TypeTag.toStr prog typeOfLeft)), σ1)
       | _ => none) := rfl

theorem run_appR (f : Nat) (prog : Prog) (σ : St) (n func : NodeId) (args : List NodeId) :
    run (f + 1) prog σ (.appR n func args) =
      (match run f prog σ (.synthR func) with
       | some (.tagR inferredFuncType, σ1) =>
           match inferredFuncType with
           | .functionT ps ret =>
               match run f prog σ1 (.appLoopR (zip args (ps.map (fun p => p.2)))
                   (.errorT n "Could not infer type") true) with
               | some (.loopR tag passed, σ2) =>
                   if passed then some (.tagR ret, σ2) else some (.tagR tag, σ2)
               | _ => none
           | _ => some (.tagR (.errorT func funAppErrMsg), σ1)
       | _ => none) := rfl

theorem run_appLoopR (f : Nat) (prog : Prog) (σ : St) (pairs : List (NodeId × TypeTag))
    (cur : TypeTag) (passed : Bool) :
    run (f + 1) prog σ (.appLoopR pairs cur passed) =
      (match pairs with
       | [] => some (.loopR cur passed, σ)
       | (arg, expectedType) :: rest =>
           match run f prog σ (.checkR arg expectedType) with
           | some (.tagR checkRetType, σ1) =>
               if isErrorTypeTag checkRetType then
                 run f prog σ1 (.appLoopR rest checkRetType false)
               else
                 run f prog σ1 (.appLoopR rest cur passed)
           | _ => none) := rfl

theorem run_checkR (f : Nat) (prog : Prog) (σ : St) (n : NodeId) (ty : TypeTag) :
    run (f + 1) prog σ (.checkR n ty) =
      (match prog n with
       | .binExpr _ left right =>
           match run f prog σ (.checkR left ty) with
           | some (.tagR leftType, σ1) =>
               match run f prog σ1 (.checkR right ty) with
               | some (.tagR rightType, σ2) =>
                   if sameTypeAs leftType ty && sameTypeAs rightType ty then
                     some (.tagR ty, σ2)
                   else
                     some (.tagR (.errorT n ("Type error in binary expression. Expected type to be "
                       ++ TypeTag.toStr prog ty ++ ", but got " ++ TypeTag.toStr prog leftType
                       ++ " and " ++ TypeTag.toStr prog rightType)), σ2)
               | _ => none
           | _ => none
       | .funDecl _ _ body =>
           match ty with
           | .functionT ps ret =>
               match run f prog { σ with env := σ.env.extendWith ps } (.checkR body ret) with
               | some (.tagR r, σ1) => some (.tagR r, { σ1 with env := σ.env })
               | _ => none
           | _ => some (.tagR (.errorT n "Function declaration must be annotated with a function type"), σ)
       | .predicateDecl _ _ => some (.tagR (.errorT n "TODO"), σ)
       | .iteNode cond thenE elseE =>
           match run f prog σ (.synthR cond) with
           | some (.tagR tc, σ1) =>
               if isBooleanTTag tc then
                 match run f prog σ1 (.synthR thenE) with
                 | some (.tagR tt, σ2) =>
                     if sameTypeAs tt ty then
                       match run f prog σ2 (.synthR elseE) with
                       | some (.tagR te, σ3) =>
                           if sameTypeAs te ty then some (.tagR ty, σ3)
                           else some (.tagR (.errorT n iteErrMsg), σ3)
                       | _ => none
                     else some (.tagR (.errorT n iteErrMsg), σ2)
                 | _ => none
               else some (.tagR (.errorT n iteErrMsg), σ1)
           | _ => none
       | _ =>
           match run f prog σ (.synthR n) with
           | some (.tagR termType, σ1) =>
               if sameTypeAs termType ty then some (.tagR ty, σ1)
               else some (.tagR (.errorT n "Type error"), σ1)
           | _ => none) := rfl

theorem synth_some (fuel : Nat) (prog : Prog) (σ : St) (n : NodeId) (t : TypeTag) (σ1 : St) :
    synth fuel prog σ n = some (t, σ1) ↔ run fuel prog σ (.synthR n) = some (.tagR t, σ1) := by
  cases h : run fuel prog σ (.synthR n) with
  | none => simp [synth, h]
  | some v =>
    obtain ⟨res, σ2⟩ := v
    cases res <;> simp [synth, h]

theorem check_some (fuel : Nat) (prog : Prog) (σ : St) (n : NodeId) (ty t : TypeTag) (σ1 : St) :
    check fuel prog σ n ty = some (t, σ1) ↔ run fuel prog σ (.checkR n ty) = some (.tagR t, σ1) := by
  cases h : run fuel prog σ (.checkR n ty) with
  | none => simp [check, h]
  | some v =>
    obtain ⟨res, σ2⟩ := v
    cases res <;> simp [check, h]

theorem synthApp_some (fuel : Nat) (prog : Prog) (σ : St) (n func : NodeId)
    (args : List NodeId) (t : TypeTag) (σ1 : St) :
    synthApp fuel prog σ n func args = some (t, σ1) ↔
      run fuel prog σ (.appR n func args) = some (.tagR t, σ1) := by
  cases h : run fuel prog σ (.appR n func args) with
  | none => simp [synthApp, h]
  | some v =>
    obtain ⟨res, σ2⟩ := v
    cases res <;> simp [synthApp, h]

theorem synthJoin_some (fuel : Nat) (prog : Prog) (σ : St) (n left : NodeId)
    (rtxt : String) (t : TypeTag) (σ1 : St) :
    synthJoin fuel prog σ n left rtxt = some (t, σ1) ↔
      run fuel prog σ (.joinR n left rtxt) = some (.tagR t, σ1) := by
  cases h : run fuel prog σ (.joinR n left rtxt) with
  | none => simp [synthJoin, h]
  | some v =>
    obtain ⟨res, σ2⟩ := v
    cases res <;> simp [synthJoin, h]

theorem funAppLoop_some (fuel : Nat) (prog : Prog) (σ : St) (pairs : List (NodeId × TypeTag))
    (cur : TypeTag) (passed : Bool) (t : TypeTag) (p2 : Bool) (σ1 : St) :
    funAppLoop fuel prog σ pairs cur passed = some ((t, p2), σ1) ↔
      run fuel prog σ (.appLoopR pairs cur passed) = some (.loopR t p2, σ1) := by
  cases h : run fuel prog σ (.appLoopR pairs cur passed) with
  | none => simp [funAppLoop, h]
  | some v =>
    obtain ⟨res, σ2⟩ := v
    cases res <;> simp [funAppLoop, h]

theorem setEnv_lookup_self (σ : St) (n : NodeId) (t : TypeTag) :
    (σ.setEnv n t).env n = some t := by
  simp [St.setEnv]

/-- `find?` distributes over list append, preferring the left list. -/
theorem find?_append_aux (l1 l2 : List α) (p : α → Bool) :
    (l1 ++ l2).find? p = ((l1.find? p).orElse (fun _ => l2.find? p)) := by
  induction l1 with
  | nil => simp
  | cons a l1 ih =>
      by_cases h : p a = true
      · rw [List.cons_append, List.find?_cons_of_pos _ h, List.find?_cons_of_pos _ h]
        rfl
      · rw [List.cons_append, List.find?_cons_of_neg _ h, List.find?_cons_of_neg _ h, ih]

/-! ## C2 — `SigTTag.sameTypeAs` -/

/-- C2, counterexample: `SigTTag.sameTypeAs` does not decide declaration
identity — two Sig tags referencing distinct declaration nodes still
compare equal. -/
theorem sigTTag_sameTypeAs_ignores_decl :
    sameTypeAs (TypeTag.sigT 0) (TypeTag.sigT 1) = true ∧ (0 : NodeId) ≠ 1 :=
  ⟨rfl, by decide⟩

/-- C2, amended: `SigTTag.sameTypeAs(other)` returns true iff `other` is a
Sig tag, regardless of which declarations the two tags reference;
declaration-identity comparison is the separate `sameSigAs` method. -/
theorem sigTTag_sameTypeAs_kind_only :
    (∀ (s : NodeId) (o : TypeTag), sameTypeAs (TypeTag.sigT s) o = isSigTTag o) ∧
    (∀ s s2 : NodeId, sameSigAs (TypeTag.sigT s) (TypeTag.sigT s2) = (s == s2)) := by
  refine ⟨fun s o => ?_, fun s s2 => rfl⟩
  cases o <;> rfl

/-! ## C9 — `ErrorTypeTag.sameTypeAs` -/

/-- C9: two Error tags compare equal under `sameTypeAs` iff they carry the
same offending node and the same message — i.e. iff the other tag is the
structurally identical Error tag. -/
theorem errorTag_sameTypeAs_iff (n : NodeId) (m : String) (o : TypeTag) :
    sameTypeAs (TypeTag.errorT n m) o = true ↔ o = TypeTag.errorT n m := by
  cases o <;> simp [sameTypeAs]
  constructor
  · rintro ⟨h1, h2⟩; simp [h1, h2]
  · rintro ⟨h1, h2⟩; simp [h1, h2]

/-- Witness for C9: independently built Error tags at node 0 with message
"a" compare equal; with differing messages they do not. -/
theorem errorTag_sameTypeAs_iff_witness :
    sameTypeAs (TypeTag.errorT 0 "a") (TypeTag.errorT 0 "a") = true ∧
    sameTypeAs (TypeTag.errorT 0 "a") (TypeTag.errorT 0 "b") = false := by
  constructor
  · exact (errorTag_sameTypeAs_iff 0 "a" (TypeTag.errorT 0 "a")).mpr rfl
  · cases hb : sameTypeAs (TypeTag.errorT 0 "a") (TypeTag.errorT 0 "b") with
    | false => rfl
    | true => exact absurd ((errorTag_sameTypeAs_iff 0 "a" (TypeTag.errorT 0 "b")).mp hb) (by simp)

/-! ## C10 — `FunctionTTag.sameTypeAs` ignores the return type -/

/-- C10: Function tags with equal arity and pairwise `sameTypeAs`-equal
parameter types compare equal under `sameTypeAs` whatever their return
types are — the return type plays no role. -/
theorem functionTag_sameTypeAs_ignores_return (ps qs : List (NodeId × TypeTag))
    (r1 r2 : TypeTag) (hlen : ps.length = qs.length)
    (hpt : ∀ (i : Nat) (h1 : i < ps.length) (h2 : i < qs.length),
        sameTypeAs (ps.get ⟨i, h1⟩).2 (qs.get ⟨i, h2⟩).2 = true) :
    sameTypeAs (TypeTag.functionT ps r1) (TypeTag.functionT qs r2) = true := by
  show paramTagsCoincide ps qs = true
  induction ps generalizing qs with
  | nil =>
      cases qs with
      | nil => rfl
      | cons q qs => exact absurd hlen (by simp)
  | cons p ps ih =>
      cases qs with
      | nil => exact absurd hlen (by simp)
      | cons q qs =>
          have h0 := hpt 0 (by simp) (by simp)
          simp only [paramTagsCoincide, Bool.and_eq_true]
          refine ⟨h0, ih qs (by simpa using hlen) ?_⟩
          intro i h1 h2
          exact hpt (i + 1) (by simpa using Nat.succ_lt_succ h1) (by simpa using Nat.succ_lt_succ h2)

/-- Witness for C10: two one-parameter Function tags with `Integer`
parameter types but different (and distinct) return types compare equal. -/
theorem functionTag_sameTypeAs_ignores_return_witness :
    sameTypeAs (TypeTag.functionT [(0, TypeTag.integerT none)] (TypeTag.booleanT none))
        (TypeTag.functionT [(1, TypeTag.integerT none)] (TypeTag.stringT none)) = true ∧
    TypeTag.booleanT none ≠ TypeTag.stringT none := by
  constructor
  · refine functionTag_sameTypeAs_ignores_return _ _ _ _ rfl ?_
    intro i h1 h2
    have hi : i = 0 := by simp at h1; omega
    subst hi
    rfl
  · intro h
    exact TypeTag.noConfusion h

/-! ## C7 — `TypeEnv.extendWith` -/

/-- Lookup in the map built from a pair list is the value of the last pair
with the looked-up key (later entries of `new Map(pairs)` overwrite
earlier ones). -/
theorem mapOfPairs_lookup (ps : List (NodeId × TypeTag)) (n : NodeId) :
    mapOfPairs ps n = (ps.reverse.find? (fun p => p.1 == n)).map (fun p => p.2) := by
  induction ps with
  | nil => rfl
  | cons p ps ih =>
      show (match mapOfPairs ps n with
            | some t => some t
            | none => if p.1 == n then some p.2 else none) = _
      rw [ih, List.reverse_cons, find?_append_aux]
      cases hf : ps.reverse.find? (fun q => q.1 == n) with
      | some q => simp [Option.orElse]
      | none =>
          simp only [Option.orElse, Option.map]
          cases hp : (p.1 == n) <;> simp [List.find?, hp]

/-- C7: `extendWith` returns an environment whose bindings are the
receiver's merged with the pairs, the pairs taking precedence on key
collision (among the pairs themselves, the later one wins, as in
`new Map(pairs)`); the receiver itself is a value in this pure embedding,
so it is unchanged by construction. -/
theorem extendWith_merge (e : TypeEnv) (ps : List (NodeId × TypeTag)) (n : NodeId) :
    TypeEnv.lookup (e.extendWith ps) n =
      (match (ps.reverse.find? (fun p => p.1 == n)).map (fun p => p.2) with
       | some t => some t
       | none => TypeEnv.lookup e n) := by
  show (match mapOfPairs ps n with
        | some t => some t
        | none => e n) = _
  rw [mapOfPairs_lookup]
  rfl

/-! ## C3 — memoization of `synth` -/

/-- C3: whenever `synth` returns normally, its result — Error tags included —
is stored in the environment it hands back, and a second call on the same
node returns that identical cached tag with unchanged state through the
lookup short-circuit (any positive fuel suffices: no recursion happens). -/
theorem synth_memoizes (fuel : Nat) (prog : Prog) (σ : St) (n : NodeId) (t : TypeTag) (σ1 : St)
    (h : synth fuel prog σ n = some (t, σ1)) :
    σ1.env n = some t ∧ ∀ f2 : Nat, synth (f2 + 1) prog σ1 n = some (t, σ1) := by
  rw [synth_some] at h
  cases fuel with
  | zero => rw [run_zero] at h; exact absurd h (by simp)
  | succ f =>
    rw [run_synthR] at h
    cases hl : σ.env n with
    | some t0 =>
        rw [hl] at h
        simp only [Option.some.injEq, Prod.mk.injEq, Res.tagR.injEq] at h
        obtain ⟨ht, hσ⟩ := h
        subst ht; subst hσ
        refine ⟨hl, fun f2 => ?_⟩
        rw [synth_some, run_synthR, hl]
    | none =>
        rw [hl] at h
        cases f with
        | zero => rw [run_zero] at h; exact absurd h (by simp)
        | succ f2 =>
          rw [run_synthNewR] at h
          cases hd : run f2 prog σ (.dispatchR n) with
          | none => rw [hd] at h; simp at h
          | some v =>
            obtain ⟨res, σa⟩ := v
            cases res with
            | tagR tag =>
                rw [hd] at h
                simp only [Option.some.injEq, Prod.mk.injEq, Res.tagR.injEq] at h
                obtain ⟨ht, hσ⟩ := h
                subst hσ
                subst ht
                refine ⟨setEnv_lookup_self σa n _, fun f3 => ?_⟩
                rw [synth_some, run_synthR, setEnv_lookup_self σa n _]
            | tagsR ts => rw [hd] at h; simp at h
            | loopR a b => rw [hd] at h; simp at h

/-- Witness for C3: synthesizing the unknown-kind node 0 memoizes its Error
tag, and a fuel-1 re-run returns the cached tag with unchanged state. -/
theorem synth_memoizes_witness :
    memoSt.env 0 = some memoTag ∧ synth 1 progO memoSt 0 = some (memoTag, memoSt) :=
  ⟨(synth_memoizes 3 progO st0 0 memoTag memoSt rfl).1,
   (synth_memoizes 3 progO st0 0 memoTag memoSt rfl).2 0⟩

/-! ## C4 — `getSigAncestors` -/

/-- Marking an unseen node below the bound as seen frees exactly its own
pop plus the pushes of its resolved parents from the potential. -/
theorem ancPotential_drop (prog : Prog) (N : Nat) (seen : List NodeId) (v : NodeId)
    (hvN : v < N) (hv : v ∉ seen) :
    ancPotential prog N (seen ++ [v]) + (1 + (sigParentsResolved prog v).length) =
      ancPotential prog N seen := by
  have hset : (Finset.range N).filter (fun i => i ∉ seen ++ [v]) =
      ((Finset.range N).filter (fun i => i ∉ seen)).erase v := by
    ext i
    simp only [Finset.mem_filter, Finset.mem_erase, Finset.mem_range, List.mem_append,
      List.mem_singleton, not_or]
    constructor
    · rintro ⟨hiN, his, hiv⟩; exact ⟨hiv, hiN, his⟩
    · rintro ⟨hiv, hiN, his⟩; exact ⟨hiN, his, hiv⟩
  rw [ancPotential, hset]
  exact Finset.sum_erase_add _ _ (by simp [hvN, hv])

/-- With fuel exceeding the potential, the ancestor worklist loop reaches
the empty stack and returns — with no assumption that the parent graph is
acyclic. -/
theorem getSigAncestorsLoop_total (prog : Prog) (N : Nat)
    (hpar : ∀ v p, v < N → p ∈ sigParentsResolved prog v → p < N) :
    ∀ (fuel : Nat) (seen stack : List NodeId), (∀ v ∈ stack, v < N) →
      stack.length + ancPotential prog N seen < fuel →
      ∃ l, getSigAncestorsLoop fuel prog seen stack = some l := by
  intro fuel
  induction fuel with
  | zero => intro seen stack _ hlt; omega
  | succ f ih =>
    intro seen stack hst hlt
    cases stack with
    | nil => exact ⟨seen, rfl⟩
    | cons v rest =>
      by_cases hmem : v ∈ seen
      · have ⟨l, hl⟩ := ih seen rest (fun x hx => hst x (List.mem_cons_of_mem _ hx))
          (by simp at hlt ⊢; omega)
        exact ⟨l, by simp [getSigAncestorsLoop, hmem, hl]⟩
      · have hvN : v < N := hst v (List.mem_cons_self _ _)
        have hdrop := ancPotential_drop prog N seen v hvN hmem
        have ⟨l, hl⟩ := ih (seen ++ [v]) ((sigParentsResolved prog v).reverse ++ rest)
          (by
            intro x hx
            rcases List.mem_append.mp hx with hx | hx
            · exact hpar v x hvN (List.mem_reverse.mp hx)
            · exact hst x (List.mem_cons_of_mem _ hx))
          (by simp at hlt ⊢; omega)
        exact ⟨l, by simp [getSigAncestorsLoop, hmem, hl]⟩

/-- Whatever the loop returns extends the seen list it started from. -/
theorem getSigAncestorsLoop_extends (prog : Prog) :
    ∀ (fuel : Nat) (seen stack l : List NodeId),
      getSigAncestorsLoop fuel prog seen stack = some l → ∃ tail, l = seen ++ tail := by
  intro fuel
  induction fuel with
  | zero => intro seen stack l h; exact absurd h (by simp [getSigAncestorsLoop])
  | succ f ih =>
    intro seen stack l h
    cases stack with
    | nil =>
        simp only [getSigAncestorsLoop, Option.some.injEq] at h
        exact ⟨[], by simp [h]⟩
    | cons v rest =>
      by_cases hmem : v ∈ seen
      · simp only [getSigAncestorsLoop, if_pos hmem] at h
        exact ih seen rest l h
      · simp only [getSigAncestorsLoop, if_neg hmem] at h
        obtain ⟨tail, htail⟩ := ih _ _ _ h
        exact ⟨v :: tail, by simp [htail]⟩

/-- The loop preserves distinctness of the seen list, so the returned
sequence has no duplicates — diamond-shaped parent graphs included. -/
theorem getSigAncestorsLoop_nodup (prog : Prog) :
    ∀ (fuel : Nat) (seen stack l : List NodeId),
      getSigAncestorsLoop fuel prog seen stack = some l → seen.Nodup → l.Nodup := by
  intro fuel
  induction fuel with
  | zero => intro seen stack l h _; exact absurd h (by simp [getSigAncestorsLoop])
  | succ f ih =>
    intro seen stack l h hnd
    cases stack with
    | nil =>
        simp only [getSigAncestorsLoop, Option.some.injEq] at h
        exact h ▸ hnd
    | cons v rest =>
      by_cases hmem : v ∈ seen
      · simp only [getSigAncestorsLoop, if_pos hmem] at h
        exact ih seen rest l h hnd
      · simp only [getSigAncestorsLoop, if_neg hmem] at h
        exact ih _ _ _ h (by simp [List.nodup_append, hnd, hmem])

/-- The loop only discovers nodes through resolved parent links: every
returned node is the start node or a resolved parent of another returned
node. -/
theorem getSigAncestorsLoop_sound (prog : Prog) (s : NodeId) :
    ∀ (fuel : Nat) (seen stack l : List NodeId),
      getSigAncestorsLoop fuel prog seen stack = some l →
      (∀ v ∈ seen, v = s ∨ ∃ u ∈ seen, v ∈ sigParentsResolved prog u) →
      (∀ v ∈ stack, v = s ∨ ∃ u ∈ seen, v ∈ sigParentsResolved prog u) →
      ∀ v ∈ l, v = s ∨ ∃ u ∈ l, v ∈ sigParentsResolved prog u := by
  intro fuel
  induction fuel with
  | zero => intro seen stack l h _ _; exact absurd h (by simp [getSigAncestorsLoop])
  | succ f ih =>
    intro seen stack l h hseen hstack
    cases stack with
    | nil =>
        simp only [getSigAncestorsLoop, Option.some.injEq] at h
        exact h ▸ hseen
    | cons v rest =>
      by_cases hmem : v ∈ seen
      · simp only [getSigAncestorsLoop, if_pos hmem] at h
        exact ih seen rest l h hseen (fun x hx => hstack x (List.mem_cons_of_mem _ hx))
      · simp only [getSigAncestorsLoop, if_neg hmem] at h
        refine ih _ _ _ h ?_ ?_
        · intro x hx
          rcases List.mem_append.mp hx with hx | hx
          · rcases hseen x hx with hx2 | ⟨u, hu, hup⟩
            · exact Or.inl hx2
            · exact Or.inr ⟨u, List.mem_append_left _ hu, hup⟩
          · rw [List.mem_singleton] at hx
            subst hx
            rcases hstack x (List.mem_cons_self _ _) with hx2 | ⟨u, hu, hup⟩
            · exact Or.inl hx2
            · exact Or.inr ⟨u, List.mem_append_left _ hu, hup⟩
        · intro x hx
          rcases List.mem_append.mp hx with hx | hx
          · exact Or.inr ⟨v, List.mem_append_right _ (List.mem_singleton_self v),
              List.mem_reverse.mp hx⟩
          · rcases hstack x (List.mem_cons_of_mem _ hx) with hx2 | ⟨u, hu, hup⟩
            · exact Or.inl hx2
            · exact Or.inr ⟨u, List.mem_append_left _ hu, hup⟩

/-- C4: on any parent graph whose node ids are below some bound (cyclic
graphs included), `getSigAncestors` terminates for some fuel and returns a
list that starts with the queried Sig, contains no duplicates, and reaches
every other member only through resolved parent links. -/
theorem getSigAncestors_props (prog : Prog) (N : Nat) (s : NodeId) (hs : s < N)
    (hpar : ∀ v p, v < N → p ∈ sigParentsResolved prog v → p < N) :
    ∃ (fuel : Nat) (l : List NodeId), getSigAncestors fuel prog s = some l ∧
      l.head? = some s ∧ l.Nodup ∧
      ∀ v ∈ l, v = s ∨ ∃ u ∈ l, v ∈ sigParentsResolved prog u := by
  obtain ⟨l, hl⟩ := getSigAncestorsLoop_total prog N hpar
    (1 + ancPotential prog N [] + 1) [] [s] (by simpa using hs) (by simp)
  have hl1 : getSigAncestorsLoop (1 + ancPotential prog N []) prog [s]
      ((sigParentsResolved prog s).reverse) = some l := by
    have hstep : getSigAncestorsLoop (1 + ancPotential prog N [] + 1) prog [] [s] =
        getSigAncestorsLoop (1 + ancPotential prog N []) prog [s]
          ((sigParentsResolved prog s).reverse ++ []) := by
      simp [getSigAncestorsLoop]
    rw [hstep] at hl
    simpa using hl
  refine ⟨1 + ancPotential prog N [] + 1, l, hl, ?_, ?_, ?_⟩
  · obtain ⟨tail, htail⟩ := getSigAncestorsLoop_extends prog _ _ _ _ hl1
    simp [htail]
  · exact getSigAncestorsLoop_nodup prog _ _ _ _ hl (by simp)
  · exact getSigAncestorsLoop_sound prog s _ _ _ _ hl1
      (by intro v hv; rw [List.mem_singleton] at hv; exact Or.inl hv)
      (by
        intro v hv
        exact Or.inr ⟨s, List.mem_singleton_self s, List.mem_reverse.mp hv⟩)

/-- Witness for C4: the diamond `D → B,C → A` satisfies the bound
hypotheses with `N = 4`, so the closure of `D` exists, starts with `D`,
and lists every Sig (in particular `A`) exactly once. -/
theorem getSigAncestors_props_witness :
    (∃ (fuel : Nat) (l : List NodeId), getSigAncestors fuel progDiamond 3 = some l ∧
      l.head? = some 3 ∧ l.Nodup ∧
      ∀ v ∈ l, v = 3 ∨ ∃ u ∈ l, v ∈ sigParentsResolved progDiamond u) ∧
    getSigAncestors 20 progDiamond 3 = some [3, 2, 0, 1] := by
  constructor
  · refine getSigAncestors_props progDiamond 4 3 (by decide) ?_
    intro v p hv hp
    interval_cases v
    · rw [show sigParentsResolved progDiamond 0 = [] from rfl] at hp
      simp at hp
    · rw [show sigParentsResolved progDiamond 1 = [0] from rfl] at hp
      simp at hp
      subst hp
      decide
    · rw [show sigParentsResolved progDiamond 2 = [0] from rfl] at hp
      simp at hp
      subst hp
      decide
    · rw [show sigParentsResolved progDiamond 3 = [1, 2] from rfl] at hp
      simp at hp
      rcases hp with rfl | rfl <;> decide
  · rfl

/-! ## C6 — checking an if/then/else expression -/

/-- One-step unfolding of `check` at an if/then/else node (the `&&` chain
of the source short-circuits, so later operands are only synthesized when
the earlier conditions held). -/
theorem run_checkR_ite (fuel : Nat) (prog : Prog) (σ : St) (n c t e : NodeId) (ty : TypeTag)
    (hn : prog n = .iteNode c t e) :
    run (fuel + 1) prog σ (.checkR n ty) =
      (match run fuel prog σ (.synthR c) with
       | some (.tagR tc, σ1) =>
           if isBooleanTTag tc then
             (match run fuel prog σ1 (.synthR t) with
              | some (.tagR tt, σ2) =>
                  if sameTypeAs tt ty then
                    (match run fuel prog σ2 (.synthR e) with
                     | some (.tagR te, σ3) =>
                         if sameTypeAs te ty then some (.tagR ty, σ3)
                         else some (.tagR (.errorT n iteErrMsg), σ3)
                     | _ => none)
                  else some (.tagR (.errorT n iteErrMsg), σ2)
              | _ => none)
           else some (.tagR (.errorT n iteErrMsg), σ1)
       | _ => none) := by
  rw [run_checkR, hn]

/-- C6: checking an if/then/else node against an expected type `ty`
synthesizes the condition and (short-circuiting) the branches: it returns
exactly `ty` when the condition synthesizes to Boolean and both branches
synthesize to a `sameTypeAs`-equal type, and the fixed if-then-else Error
tag on every failure. -/
theorem check_ite_rule (fuel : Nat) (prog : Prog) (σ : St) (n c t e : NodeId) (ty : TypeTag)
    (r : TypeTag × St) (hn : prog n = .iteNode c t e)
    (hr : check (fuel + 1) prog σ n ty = some r) :
    ∀ tc σ1, synth fuel prog σ c = some (tc, σ1) →
      (isBooleanTTag tc = false → r = (.errorT n iteErrMsg, σ1)) ∧
      (isBooleanTTag tc = true →
        ∀ tt σ2, synth fuel prog σ1 t = some (tt, σ2) →
          (sameTypeAs tt ty = false → r = (.errorT n iteErrMsg, σ2)) ∧
          (sameTypeAs tt ty = true →
            ∀ te σ3, synth fuel prog σ2 e = some (te, σ3) →
              r = ((if sameTypeAs te ty then ty else .errorT n iteErrMsg), σ3))) := by
  obtain ⟨rt, rσ⟩ := r
  rw [check_some] at hr
  rw [run_checkR_ite fuel prog σ n c t e ty hn] at hr
  intro tc σ1 h1
  rw [synth_some] at h1
  rw [h1] at hr
  constructor
  · intro hb
    simp only [hb, Bool.false_eq_true, if_false, Option.some.injEq, Prod.mk.injEq,
      Res.tagR.injEq] at hr
    simp [hr.1, hr.2]
  · intro hb
    simp only [hb, if_true] at hr
    intro tt σ2 h2
    rw [synth_some] at h2
    rw [h2] at hr
    constructor
    · intro ht
      simp only [ht, Bool.false_eq_true, if_false, Option.some.injEq, Prod.mk.injEq,
        Res.tagR.injEq] at hr
      simp [hr.1, hr.2]
    · intro ht
      simp only [ht, if_true] at hr
      intro te σ3 h3
      rw [synth_some] at h3
      rw [h3] at hr
      cases hte : sameTypeAs te ty
      · simp only [hte, Bool.false_eq_true, if_false, Option.some.injEq, Prod.mk.injEq,
          Res.tagR.injEq] at hr
        simp [hr.1, hr.2]
      · simp only [hte, if_true, Option.some.injEq, Prod.mk.injEq, Res.tagR.injEq] at hr
        simp [hr.1, hr.2]

/-- Witness for C6: `if (true) then 1 else 2` checked against Integer
succeeds with Integer, `if (1) then 1 else 2` fails with the if-then-else
Error, and the theorem, applied to the latter scenario with its hypotheses
discharged by evaluation, reproduces that failure. -/
theorem check_ite_rule_witness :
    (check 10 progIte st0 0 (.integerT none)).map Prod.fst = some (.integerT none) ∧
    (check 10 progIte st0 5 (.integerT none)).map Prod.fst = some (.errorT 5 iteErrMsg) ∧
    (TypeTag.errorT 5 iteErrMsg, st0.setEnv 6 (.integerT (some 6))) =
      ((.errorT 5 iteErrMsg : TypeTag), st0.setEnv 6 (.integerT (some 6))) :=
  ⟨rfl, rfl,
   ((check_ite_rule 9 progIte st0 5 6 2 3 (.integerT none)
        (.errorT 5 iteErrMsg, st0.setEnv 6 (.integerT (some 6))) rfl rfl)
      (.integerT (some 6)) (st0.setEnv 6 (.integerT (some 6))) rfl).1 rfl⟩

/-! ## C8 — the fallback path of `check` -/

/-- One-step unfolding of `check` on a node kind without a bespoke rule. -/
theorem run_checkR_fallback (fuel : Nat) (prog : Prog) (σ : St) (n : NodeId) (ty : TypeTag)
    (hbk : hasBespokeCheckRule (prog n) = false) :
    run (fuel + 1) prog σ (.checkR n ty) =
      (match run fuel prog σ (.synthR n) with
       | some (.tagR termType, σ1) =>
           if sameTypeAs termType ty then some (.tagR ty, σ1)
           else some (.tagR (.errorT n "Type error"), σ1)
       | _ => none) := by
  rw [run_checkR]
  cases hpn : prog n <;>
    first
      | rfl
      | (rw [hpn] at hbk; exact absurd hbk (by simp [hasBespokeCheckRule]))

/-- C8, counterexample: the fallback Error message is the constant
`"Type error"`, naming neither the synthesized nor the expected type
(checking the literal `1` against Boolean), and checking `1 + 2` against
Boolean produces the binary-expression Error whose message does not
mention Integer either. -/
theorem check_fallback_names_no_types :
    (check 5 progBin st0 1 (.booleanT none)).map Prod.fst = some (.errorT 1 "Type error") ∧
    ¬ ("Integer".toList <:+: "Type error".toList) ∧
    ¬ ("Boolean".toList <:+: "Type error".toList) ∧
    (check 10 progBin st0 0 (.booleanT none)).map Prod.fst = some (.errorT 0 binBoolErrMsg) ∧
    ¬ ("Integer".toList <:+: binBoolErrMsg.toList) :=
  ⟨rfl, by decide, by decide, rfl, by decide⟩

/-- C8, amended: on any node kind without a bespoke rule, `check`
synthesizes the node and compares with `sameTypeAs`: equal yields the
expected type, unequal the Error with constant message "Type error"
(naming neither type); checking `1 + 2` against Boolean fails through the
binary-expression rule with `binBoolErrMsg`. -/
theorem check_fallback_rule :
    (∀ (fuel : Nat) (prog : Prog) (σ : St) (n : NodeId) (ty : TypeTag) (r : TypeTag × St)
        (tt : TypeTag) (σ1 : St),
      hasBespokeCheckRule (prog n) = false →
      check (fuel + 1) prog σ n ty = some r →
      synth fuel prog σ n = some (tt, σ1) →
      r = ((if sameTypeAs tt ty then ty else .errorT n "Type error"), σ1)) ∧
    (check 10 progBin st0 0 (.booleanT none)).map Prod.fst = some (.errorT 0 binBoolErrMsg) := by
  constructor
  · intro fuel prog σ n ty r tt σ1 hbk hr hsyn
    obtain ⟨rt, rσ⟩ := r
    rw [check_some] at hr
    rw [run_checkR_fallback fuel prog σ n ty hbk] at hr
    rw [synth_some] at hsyn
    rw [hsyn] at hr
    cases hst : sameTypeAs tt ty
    · simp only [hst, Bool.false_eq_true, if_false, Option.some.injEq, Prod.mk.injEq,
        Res.tagR.injEq] at hr
      simp [hr.1, hr.2, hst]
    · simp only [hst, if_true, Option.some.injEq, Prod.mk.injEq, Res.tagR.injEq] at hr
      simp [hr.1, hr.2, hst]
  · rfl

/-- Witness for C8: checking the literal `1` (node 1 of `progBin`) against
Boolean goes through the fallback, whose hypotheses hold by evaluation, and
yields the constant-message Error. -/
theorem check_fallback_rule_witness :
    ((TypeTag.errorT 1 "Type error", st0.setEnv 1 (.integerT (some 1))) : TypeTag × St) =
      ((if sameTypeAs (.integerT (some 1)) (.booleanT none) then (.booleanT none : TypeTag)
        else .errorT 1 "Type error"), st0.setEnv 1 (.integerT (some 1))) :=
  check_fallback_rule.1 4 progBin st0 1 (.booleanT none)
    (.errorT 1 "Type error", st0.setEnv 1 (.integerT (some 1)))
    (.integerT (some 1)) (st0.setEnv 1 (.integerT (some 1))) rfl rfl rfl

/-! ## C5 — function application -/

/-- One-step unfolding of the application rule when the callee synthesized
to a Function tag. -/
theorem run_appR_fun (fuel : Nat) (prog : Prog) (σ : St) (n func : NodeId)
    (args : List NodeId) (ps : List (NodeId × TypeTag)) (ret : TypeTag) (σ1 : St)
    (hf : run fuel prog σ (.synthR func) = some (.tagR (.functionT ps ret), σ1)) :
    run (fuel + 1) prog σ (.appR n func args) =
      (match run fuel prog σ1 (.appLoopR (zip args (ps.map (fun p => p.2)))
          (.errorT n "Could not infer type") true) with
       | some (.loopR tag passed, σ2) =>
           if passed then some (.tagR ret, σ2) else some (.tagR tag, σ2)
       | _ => none) := by
  rw [run_appR, hf]

/-- One-step unfolding of the application rule when the callee synthesized
to anything but a Function tag. -/
theorem run_appR_nonfun (fuel : Nat) (prog : Prog) (σ : St) (n func : NodeId)
    (args : List NodeId) (ft : TypeTag) (σ1 : St)
    (hf : run fuel prog σ (.synthR func) = some (.tagR ft, σ1))
    (hnf : isFunctionTTag ft = false) :
    run (fuel + 1) prog σ (.appR n func args) =
      some (.tagR (.errorT func funAppErrMsg), σ1) := by
  rw [run_appR, hf]
  cases ft <;> first | rfl | (simp [isFunctionTTag] at hnf)

/-- Whatever the argument loop returns: `checkPassed` survives only when it
started true and no check failed (the running tag is then untouched), and a
false `checkPassed` means the running tag is an Error that was either the
incoming one or the output of checking one of the remaining pairs. -/
theorem funAppLoop_props (prog : Prog) : ∀ (fuel : Nat) (σ : St)
    (pairs : List (NodeId × TypeTag)) (cur : TypeTag) (passed : Bool)
    (res : TypeTag) (p2 : Bool) (σ2 : St),
    funAppLoop fuel prog σ pairs cur passed = some ((res, p2), σ2) →
    (p2 = true → passed = true ∧ res = cur) ∧
    (p2 = false → (passed = false ∧ res = cur) ∨ (isErrorTypeTag res = true ∧
        ∃ pr ∈ pairs, ∃ (fc : Nat) (σa σb : St), check fc prog σa pr.1 pr.2 = some (res, σb))) := by
  intro fuel
  induction fuel with
  | zero =>
      intro σ pairs cur passed res p2 σ2 h
      rw [funAppLoop_some, run_zero] at h
      exact absurd h (by simp)
  | succ f ih =>
    intro σ pairs cur passed res p2 σ2 h
    rw [funAppLoop_some, run_appLoopR] at h
    cases pairs with
    | nil =>
        simp only [Option.some.injEq, Prod.mk.injEq, Res.loopR.injEq] at h
        obtain ⟨⟨hc, hp⟩, hσ⟩ := h
        subst hc; subst hp
        exact ⟨fun h2 => ⟨h2, rfl⟩, fun h2 => Or.inl ⟨h2, rfl⟩⟩
    | cons pr rest =>
        obtain ⟨arg, ety⟩ := pr
        cases hc : run f prog σ (.checkR arg ety) with
        | none => simp [hc] at h
        | some v =>
          obtain ⟨cres, σa⟩ := v
          cases cres with
          | tagR c =>
              cases he : isErrorTypeTag c
              · simp only [hc, he, Bool.false_eq_true, if_false] at h
                rw [← funAppLoop_some] at h
                have hprops := ih σa rest cur passed res p2 σ2 h
                refine ⟨hprops.1, fun hp2 => ?_⟩
                rcases hprops.2 hp2 with hl | ⟨herr, q, hq, hrest⟩
                · exact Or.inl hl
                · exact Or.inr ⟨herr, q, List.mem_cons_of_mem _ hq, hrest⟩
              · simp only [hc, he, if_true] at h
                rw [← funAppLoop_some] at h
                have hprops := ih σa rest c false res p2 σ2 h
                constructor
                · intro hp2
                  exact absurd (hprops.1 hp2).1 (by simp)
                · intro hp2
                  rcases hprops.2 hp2 with ⟨_, hres⟩ | ⟨herr, q, hq, hrest⟩
                  · refine Or.inr ⟨hres ▸ he, (arg, ety), List.mem_cons_self _ _,
                      f, σ, σa, ?_⟩
                    rw [check_some, hc, hres]
                  · exact Or.inr ⟨herr, q, List.mem_cons_of_mem _ hq, hrest⟩
          | tagsR ts => simp [hc] at h
          | loopR a b => simp [hc] at h

/-- C5: when the callee synthesizes to a Function tag, the supplied
arguments are checked positionally against the parameter types, the pairing
truncated by `zip` to the shorter list (no arity error); if the loop ends
with `checkPassed`, the application's type is the declared return type,
otherwise it is an Error that a failing argument check produced; a
non-Function callee yields the expected-a-function Error. -/
theorem synthApp_rule (fuel : Nat) (prog : Prog) (σ : St) (n func : NodeId)
    (args : List NodeId) (ft : TypeTag) (σ1 : St) (r : TypeTag × St)
    (happ : synthApp (fuel + 1) prog σ n func args = some r)
    (hf : synth fuel prog σ func = some (ft, σ1)) :
    (isFunctionTTag ft = false → r = (.errorT func funAppErrMsg, σ1)) ∧
    (∀ (ps : List (NodeId × TypeTag)) (ret : TypeTag), ft = .functionT ps ret →
      ∃ (res : TypeTag) (p2 : Bool) (σ2 : St),
        funAppLoop fuel prog σ1 (zip args (ps.map (fun p => p.2)))
            (.errorT n "Could not infer type") true = some ((res, p2), σ2) ∧
        r = ((if p2 then ret else res), σ2) ∧
        (p2 = false → isErrorTypeTag res = true ∧
          ∃ pr ∈ zip args (ps.map (fun p => p.2)), ∃ (fc : Nat) (σa σb : St),
            check fc prog σa pr.1 pr.2 = some (res, σb))) := by
  obtain ⟨rt, rσ⟩ := r
  rw [synthApp_some] at happ
  rw [synth_some] at hf
  constructor
  · intro hnf
    rw [run_appR_nonfun fuel prog σ n func args ft σ1 hf hnf] at happ
    simp only [Option.some.injEq, Prod.mk.injEq, Res.tagR.injEq] at happ
    simp [happ.1, happ.2]
  · intro ps ret hft
    subst hft
    rw [run_appR_fun fuel prog σ n func args ps ret σ1 hf] at happ
    cases hlp : run fuel prog σ1 (.appLoopR (zip args (ps.map (fun p => p.2)))
        (.errorT n "Could not infer type") true) with
    | none => rw [hlp] at happ; simp at happ
    | some v =>
      obtain ⟨lres, σ2⟩ := v
      cases lres with
      | tagR c => rw [hlp] at happ; simp at happ
      | tagsR ts => rw [hlp] at happ; simp at happ
      | loopR res p2 =>
          have hloop : funAppLoop fuel prog σ1 (zip args (ps.map (fun p => p.2)))
              (.errorT n "Could not infer type") true = some ((res, p2), σ2) := by
            rw [funAppLoop_some, hlp]
          have hprops := funAppLoop_props prog fuel σ1 _ _ _ res p2 σ2 hloop
          refine ⟨res, p2, σ2, hloop, ?_, ?_⟩
          · cases p2
            · simp only [hlp, Bool.false_eq_true, if_false, Option.some.injEq,
                Prod.mk.injEq, Res.tagR.injEq] at happ
              simp [happ.1, happ.2]
            · simp only [hlp, if_true, Option.some.injEq, Prod.mk.injEq,
                Res.tagR.injEq] at happ
              simp [happ.1, happ.2]
          · intro hp2
            rcases hprops.2 hp2 with ⟨hfalse, _⟩ | hok
            · exact absurd hfalse (by simp)
            · exact hok

/-- Witness for C5: `f(1)` has the declared return type Boolean, `f(true)`
has the Error produced by checking `true` against Integer, `f()` (fewer
arguments than parameters) raises no arity error and keeps the return
type, and applying the number literal 12 (callee synthesizing to Integer)
yields the expected-a-function Error via the theorem with its hypotheses
discharged by evaluation. -/
theorem synthApp_rule_witness :
    (synth 40 progApp st0 10).map Prod.fst = some (.booleanT none) ∧
    (synth 40 progApp st0 20).map Prod.fst = some (.errorT 21 "Type error") ∧
    (synth 40 progApp st0 30).map Prod.fst = some (.booleanT none) ∧
    ((TypeTag.errorT 12 funAppErrMsg, st0.setEnv 12 (.integerT (some 12))) : TypeTag × St) =
      (.errorT 12 funAppErrMsg, st0.setEnv 12 (.integerT (some 12))) :=
  ⟨rfl, rfl, rfl,
   (synthApp_rule 4 progApp st0 40 12 [] (.integerT (some 12))
      (st0.setEnv 12 (.integerT (some 12)))
      (.errorT 12 funAppErrMsg, st0.setEnv 12 (.integerT (some 12))) rfl rfl).1 rfl⟩

/-! ## C1 — join resolution -/

/-- C1, counterexample: relation `r` (node 2) is declared on `P` (node 0),
an ancestor of `S` (node 1) — the ancestor closure of `S` is `[S, P]` and
the scoping collaborator's candidate relation set for `S` contains `r` —
yet synthesizing the join ``x `r`` (with `x : S`) does not return the
relatum type: it fails with the Relatum-not-found Error, because
`synthJoin` searches only the relations declared directly on `S`. -/
theorem join_on_ancestor_relation_fails :
    (synth 20 progJoin st0 6).map Prod.fst = some (.errorT 6 "Relatum r not found in S") ∧
    getSigAncestors 20 progJoin 1 = some [1, 0] ∧
    sigRelations progJoin 0 = [2] ∧
    sigRelations progJoin 1 = [] ∧
    nameOf (progJoin 2) = some "r" ∧
    scopeSigMembersRels 20 progJoin 1 = some [2] :=
  ⟨rfl, rfl, rfl, rfl, rfl, rfl⟩

/-- One-step unfolding of `synthJoin` once the left operand synthesized to
a Sig tag. -/
theorem run_joinR_sigtag (fuel : Nat) (prog : Prog) (σ : St) (n left : NodeId) (rtxt : String)
    (s : NodeId) (σ1 : St)
    (hL : run fuel prog σ (.synthR left) = some (.tagR (.sigT s), σ1)) :
    run (fuel + 1) prog σ (.joinR n left rtxt) =
      (match prog s with
       | .sigDecl sname _ relations =>
           (match relations.find? (fun relId => nameOf (prog relId) == some rtxt) with
            | some matchingRelation =>
                (match run fuel prog σ1 (.synthR matchingRelation) with
                 | some (.tagR relationType, σ2) =>
                     (match relationType with
                      | .relationT _ parentSig relatum _ =>
                          if parentSig == s then some (.tagR relatum, σ2)
                          else some (.tagR (.errorT n "join should have worked"), σ2)
                      | _ =>
                          some (.tagR (.errorT matchingRelation
                            ("Relation should have a RelationTTag, but it instead has "
                              ++ TypeTag.toStr prog relationType)), σ2))
                 | _ => none)
            | none => some (.tagR (.errorT n ("Relatum " ++ rtxt ++ " not found in " ++ sname)), σ1))
       | _ => none) := by
  rw [run_joinR, hL]

/-- One-step unfolding of `synthJoin` once the left operand synthesized to
a Sig tag whose declaration is known. -/
theorem run_joinR_sig (fuel : Nat) (prog : Prog) (σ : St) (n left : NodeId) (rtxt : String)
    (s : NodeId) (σ1 : St) (sname : String) (parents : List (Option NodeId))
    (rels : List NodeId)
    (hL : run fuel prog σ (.synthR left) = some (.tagR (.sigT s), σ1))
    (hs : prog s = .sigDecl sname parents rels) :
    run (fuel + 1) prog σ (.joinR n left rtxt) =
      (match rels.find? (fun relId => nameOf (prog relId) == some rtxt) with
       | some matchingRelation =>
           (match run fuel prog σ1 (.synthR matchingRelation) with
            | some (.tagR relationType, σ2) =>
                (match relationType with
                 | .relationT _ parentSig relatum _ =>
                     if parentSig == s then some (.tagR relatum, σ2)
                     else some (.tagR (.errorT n "join should have worked"), σ2)
                 | _ =>
                     some (.tagR (.errorT matchingRelation
                       ("Relation should have a RelationTTag, but it instead has "
                         ++ TypeTag.toStr prog relationType)), σ2))
            | _ => none)
       | none => some (.tagR (.errorT n ("Relatum " ++ rtxt ++ " not found in " ++ sname)), σ1)) := by
  rw [run_joinR_sigtag fuel prog σ n left rtxt s σ1 hL, hs]

/-- C1, amended: when the left operand of a join synthesizes to a Sig tag
for declaration `s`, `synthJoin` searches only the relations declared
directly on `s` (not the ancestor closure, which is what the scoping
collaborator's `scopeSigMembers` enumerates): no directly-declared relation
of the right-hand name means the Relatum-not-found Error naming `s`, even
if an ancestor declares it; a directly-declared one is synthesized and
`joinOnLeft` returns its relatum type exactly when its owner is `s`. -/
theorem synthJoin_direct_relations_only (fuel : Nat) (prog : Prog) (σ : St)
    (n left : NodeId) (rtxt : String) (r : TypeTag × St)
    (hj : synthJoin (fuel + 1) prog σ n left rtxt = some r)
    (s : NodeId) (σ1 : St) (hL : synth fuel prog σ left = some (.sigT s, σ1))
    (sname : String) (parents : List (Option NodeId)) (rels : List NodeId)
    (hs : prog s = .sigDecl sname parents rels) :
    (rels.find? (fun relId => nameOf (prog relId) == some rtxt) = none →
      r = (.errorT n ("Relatum " ++ rtxt ++ " not found in " ++ sname), σ1)) ∧
    (∀ relId, rels.find? (fun relId => nameOf (prog relId) == some rtxt) = some relId →
      ∀ (relNode psig : NodeId) (relatum : TypeTag) (iid : Nat) (σ2 : St),
        synth fuel prog σ1 relId = some (.relationT relNode psig relatum iid, σ2) →
        r = ((if psig == s then relatum else .errorT n "join should have worked"), σ2)) := by
  obtain ⟨rt, rσ⟩ := r
  rw [synthJoin_some] at hj
  rw [synth_some] at hL
  rw [run_joinR_sig fuel prog σ n left rtxt s σ1 sname parents rels hL hs] at hj
  constructor
  · intro hfind
    simp only [hfind, Option.some.injEq, Prod.mk.injEq, Res.tagR.injEq] at hj
    simp [hj.1, hj.2]
  · intro relId hfind relNode psig relatum iid σ2 hrel
    rw [synth_some] at hrel
    simp only [hfind, hrel] at hj
    cases hps : (psig == s)
    · simp only [hps, Bool.false_eq_true, if_false, Option.some.injEq, Prod.mk.injEq,
        Res.tagR.injEq] at hj
      simp [hj.1, hj.2, hps]
    · simp only [hps, if_true, Option.some.injEq, Prod.mk.injEq, Res.tagR.injEq] at hj
      simp [hj.1, hj.2, hps]

/-- Witness for C1 (amended): joining ``p `r`` where `r : Integer` is
declared directly on `P` resolves through `joinOnLeft` to the relatum type
Integer (all hypotheses of the amended theorem hold by evaluation). -/
theorem synthJoin_direct_relations_only_witness :
    ((TypeTag.integerT none, joinStRel) : TypeTag × St) =
      ((if ((0 : NodeId) == 0) then (.integerT none : TypeTag)
        else .errorT 7 "join should have worked"), joinStRel) :=
  (synthJoin_direct_relations_only 19 progJoin st0 7 8 "r" (.integerT none, joinStRel) rfl
      0 joinSt1 rfl "P" [] [2] rfl).2 2 rfl 2 0 (.integerT none) 0 joinStRel rfl

end Lam4
